import Mathlib

/-!
# Register consoles of `vivado_ip`: `adc_tool.c`, `dac_tool.c`, `gpiod-dac-test.c`

A shallow embedding of the three C programs.

* `uint32_t` values are natural numbers below `2 ^ 32`; every `uint32_t`
  operation that can leave that range is reduced `% 2 ^ 32` explicitly.
* `int`, `long` and `int16_t` values are integers; C's `/` on them is
  `Int.tdiv` (truncation toward zero).
* The memory-mapped window `volatile uint32_t *regs` is a record of the three
  words at offsets 0, 1, 2.  One pass through the body of `while (running)`
  is a function from the words read at the top of the pass and the key
  returned by `getch()` to the `running` flag and the list of stores the
  pass performs, in program order.
* The key codes that come from `<ncurses.h>` (`ERR`, `KEY_UP`, ...) are a
  parameter of the embedding.
* The GPIO tool is a function of its command line: `argv` is a list of
  strings, `argc` its length, and `atoi` is the C library's conversion as
  glibc computes it with a 64-bit `long` and a 32-bit `int`.
-/

namespace VivadoIp

/-! ## Machine arithmetic -/

/-- Conversion of a signed C integer to `uint32_t` (reduction modulo `2 ^ 32`). -/
def toUInt32 (i : Int) : Nat := (i % 4294967296).toNat

/-- Conversion of an unsigned value to `int16_t`: the low 16 bits read as
two's complement (`0xFFFF` becomes `-1`, `0x8000` becomes `-32768`). -/
def toInt16 (n : Nat) : Int :=
  if n % 65536 < 32768 then ((n % 65536 : Nat) : Int) else ((n % 65536 : Nat) : Int) - 65536

/-- Conversion of an unsigned value to `uint16_t`. -/
def toUInt16 (n : Nat) : Nat := n % 65536

/-- Sum `a + b` computed in `uint32_t`. -/
def u32_add (a b : Nat) : Nat := (a + b) % 4294967296

/-- Difference `a - b` computed in `uint32_t`. -/
def u32_sub (a b : Nat) : Nat := (a + (4294967296 - b % 4294967296)) % 4294967296

/-! ## The register window -/

/-- Offset of the data word (`#define REG_DATA 0`). -/
def REG_DATA : Nat := 0

/-- Offset of the control word (`#define REG_CTRL 1`). -/
def REG_CTRL : Nat := 1

/-- Offset of the prescaler word (`#define REG_PRE 2`). -/
def REG_PRE : Nat := 2

/-- The three 32-bit words reachable through `regs[0]`, `regs[1]`, `regs[2]`. -/
structure Regs where
  data : Nat
  ctrl : Nat
  pre : Nat
  deriving DecidableEq

/-- Load `regs[off]`. -/
def Regs.read (m : Regs) (off : Nat) : Nat :=
  if off = REG_DATA then m.data
  else if off = REG_CTRL then m.ctrl
  else if off = REG_PRE then m.pre
  else 0

/-- Store `regs[off] = v`; the stored value is a `uint32_t`. -/
def Regs.write (m : Regs) (off : Nat) (v : Nat) : Regs :=
  if off = REG_DATA then { m with data := v % 4294967296 }
  else if off = REG_CTRL then { m with ctrl := v % 4294967296 }
  else if off = REG_PRE then { m with pre := v % 4294967296 }
  else m

/-- One store to the window: the offset and the value stored. -/
abbrev Store := Nat × Nat

/-- Perform a list of stores in program order. -/
def Regs.writeAll (m : Regs) (ws : List Store) : Regs :=
  ws.foldl (fun acc w => acc.write w.1 w.2) m

/-- What the input handling of one pass leaves behind: the `running` flag and
the stores it performed. -/
structure Step where
  running : Bool
  writes : List Store
  deriving DecidableEq

/-- The words read at the top of a pass (`raw_r0`, `raw_r1`, `raw_r2`). -/
structure Snapshot where
  raw_r0 : Nat
  raw_r1 : Nat
  raw_r2 : Nat
  deriving DecidableEq

/-- The three loads at the top of the loop body. -/
def Regs.snapshot (m : Regs) : Snapshot :=
  { raw_r0 := m.read REG_DATA, raw_r1 := m.read REG_CTRL, raw_r2 := m.read REG_PRE }

/-! ## Key codes -/

/-- The constants the consoles take from `<ncurses.h>`: the "no input" result
of `getch()` and the four arrow keys. -/
structure Curses where
  ERR : Int
  KEY_DOWN : Int
  KEY_UP : Int
  KEY_LEFT : Int
  KEY_RIGHT : Int
  deriving DecidableEq

/-- The values of ncurses: `ERR` is `(-1)`, `KEY_DOWN` is `0402`, `KEY_UP` is
`0403`, `KEY_LEFT` is `0404`, `KEY_RIGHT` is `0405` (octal). -/
def ncurses : Curses :=
  { ERR := -1, KEY_DOWN := 258, KEY_UP := 259, KEY_LEFT := 260, KEY_RIGHT := 261 }

/-- The character constant `'q'`. -/
def CH_q : Int := 113
/-- The character constant `'o'`. -/
def CH_o : Int := 111
/-- The character constant `'c'`. -/
def CH_c : Int := 99
/-- The character constant `'+'`. -/
def CH_plus : Int := 43
/-- The character constant `'-'`. -/
def CH_minus : Int := 45
/-- The character constant `'m'`. -/
def CH_m : Int := 109
/-- The character constant `'0'`. -/
def CH_0 : Int := 48
/-- The character constant `'1'`. -/
def CH_1 : Int := 49
/-- The character constant `']'`. -/
def CH_rbracket : Int := 93
/-- The character constant `'['`. -/
def CH_lbracket : Int := 91

/-- The case labels of the ADC console's `switch`. -/
def adcLabels : List Int := [CH_q, CH_o, CH_c, CH_plus, CH_minus]

/-- The case labels of the DAC console's `switch`. -/
def dacLabels (k : Curses) : List Int :=
  [CH_q, CH_m, CH_0, CH_1, k.KEY_UP, k.KEY_DOWN, k.KEY_RIGHT, k.KEY_LEFT, CH_rbracket, CH_lbracket]

/-- The key codes are usable by both programs: the case labels of each `switch`
are pairwise distinct (C accepts no duplicate label) and `ERR` is none of
them. -/
def Curses.Valid (k : Curses) : Prop :=
  (k.ERR :: dacLabels k).Nodup ∧ (k.ERR :: adcLabels).Nodup

instance (k : Curses) : Decidable k.Valid := by
  unfold Curses.Valid; infer_instance

/-! ## `adc_tool.c` -/

namespace AdcTool

/-- Decoded sample: `int16_t adc_val = (int16_t)(raw_r0 & 0xFFFF);` -/
def adc_val (raw_r0 : Nat) : Int := toInt16 (raw_r0 &&& 0xFFFF)

/-- Overflow flag: `int adc_ovf = (raw_r0 >> 16) & 0x1;` -/
def adc_ovf (raw_r0 : Nat) : Nat := (raw_r0 >>> 16) &&& 0x1

/-- Output enable: `int curr_oe = raw_r1 & 0x01;` -/
def curr_oe (raw_r1 : Nat) : Nat := raw_r1 &&& 0x01

/-- Clock source: `int curr_cs = (raw_r1 >> 1) & 0x01;` -/
def curr_cs (raw_r1 : Nat) : Nat := (raw_r1 >>> 1) &&& 0x01

/-- The divisor of `freq_mhz = 100.0 / (2.0 * (raw_r2 + 1))`.  The sum
`raw_r2 + 1` is a `uint32_t` sum; its conversion to `double` and the product
with `2.0` are exact, so the divisor is this natural number. -/
def freq_divisor (raw_r2 : Nat) : Nat := 2 * u32_add raw_r2 1

/-- The quotient `100.0 / (2.0 * (raw_r2 + 1))` before rounding to `double`;
`none` when the divisor is zero, where the quotient is not a number of MHz. -/
def freq_mhz (raw_r2 : Nat) : Option ℚ :=
  if freq_divisor raw_r2 = 0 then none else some (100 / (freq_divisor raw_r2 : ℚ))

/-- Voltage: `double voltage = ((double)adc_val / 32768.0) * 10.0;`.  For a
16-bit sample the quotient by `2 ^ 15` and the product with `10` are exact in
`double`, so the value is this rational number. -/
def voltage (adc_val : Int) : ℚ := ((adc_val : ℚ) / 32768) * 10

/-- Shifted sample: `long shifted_val = (long)adc_val + 32768;` -/
def shifted_val (adc_val : Int) : Int := adc_val + 32768

/-- Bar length: `int bars = (shifted_val * 60) / 65535;` followed by
`if (bars < 0) bars = 0; if (bars > 60) bars = 60;` -/
def bars (adc_val : Int) : Int :=
  let bars := Int.tdiv (shifted_val adc_val * 60) 65535
  let bars := if bars < 0 then 0 else bars
  if bars > 60 then 60 else bars

/-- Input handling of one pass: `if (ch != ERR) { switch(ch) { ... } }`. -/
def dispatch (k : Curses) (s : Snapshot) (ch : Int) : Step :=
  if ch ≠ k.ERR then
    if ch = CH_q then { running := false, writes := [] }
    else if ch = CH_o then { running := true, writes := [(REG_CTRL, s.raw_r1 ^^^ 0x01)] }
    else if ch = CH_c then { running := true, writes := [(REG_CTRL, s.raw_r1 ^^^ 0x02)] }
    else if ch = CH_plus then
      if s.raw_r2 > 0 then { running := true, writes := [(REG_PRE, u32_sub s.raw_r2 1)] }
      else { running := true, writes := [] }
    else if ch = CH_minus then { running := true, writes := [(REG_PRE, u32_add s.raw_r2 1)] }
    else { running := true, writes := [] }
  else { running := true, writes := [] }

/-- One pass through the loop body on the window `m` with `getch()`
returning `ch`: the `running` flag and the window afterwards. -/
def pass (k : Curses) (m : Regs) (ch : Int) : Bool × Regs :=
  let st := dispatch k m.snapshot ch
  (st.running, m.writeAll st.writes)

end AdcTool

/-! ## `dac_tool.c` -/

namespace DacTool

/-- Bit 0 of the control word: `#define MASK_MODE (1 << 0)`. -/
def MASK_MODE : Nat := 1 <<< 0

/-- Bit 1 of the control word: `#define MASK_EN0 (1 << 1)`. -/
def MASK_EN0 : Nat := 1 <<< 1

/-- Bit 2 of the control word: `#define MASK_EN1 (1 << 2)`. -/
def MASK_EN1 : Nat := 1 <<< 2

/-- Mode flag: `int mode_manual = (raw_r1 & MASK_MODE);` -/
def mode_manual (raw_r1 : Nat) : Nat := raw_r1 &&& MASK_MODE

/-- DAC 0 enable: `int en_0 = (raw_r1 & MASK_EN0);` -/
def en_0 (raw_r1 : Nat) : Nat := raw_r1 &&& MASK_EN0

/-- DAC 1 enable: `int en_1 = (raw_r1 & MASK_EN1);` -/
def en_1 (raw_r1 : Nat) : Nat := raw_r1 &&& MASK_EN1

/-- Manual value: `uint16_t dac_val = raw_r0 & 0x0FFF;` -/
def dac_val (raw_r0 : Nat) : Nat := toUInt16 (raw_r0 &&& 0x0FFF)

/-- The divisor of `freq_mhz = 100.0 / (2.0 * (raw_r2 + 1))`, with the
`uint32_t` sum `raw_r2 + 1`. -/
def freq_divisor (raw_r2 : Nat) : Nat := 2 * u32_add raw_r2 1

/-- The quotient `100.0 / (2.0 * (raw_r2 + 1))` before rounding to `double`;
`none` when the divisor is zero. -/
def freq_mhz (raw_r2 : Nat) : Option ℚ :=
  if freq_divisor raw_r2 = 0 then none else some (100 / (freq_divisor raw_r2 : ℚ))

/-- Bar length: `int bars = (dac_val * 60) / 4095; if (bars > 60) bars = 60;` -/
def bars (dac_val : Nat) : Int :=
  let bars := Int.tdiv ((dac_val : Int) * 60) 4095
  if bars > 60 then 60 else bars

/-- Input handling of one pass: `if (ch != ERR) { uint32_t next_val; switch(ch) { ... } }`.
The sums and differences on `dac_val` are `int` arithmetic, converted to
`uint32_t` when assigned to `next_val` or stored. -/
def dispatch (k : Curses) (s : Snapshot) (ch : Int) : Step :=
  let dac_val : Int := (dac_val s.raw_r0 : Nat)
  if ch ≠ k.ERR then
    if ch = CH_q then { running := false, writes := [] }
    else if ch = CH_m then { running := true, writes := [(REG_CTRL, s.raw_r1 ^^^ MASK_MODE)] }
    else if ch = CH_0 then { running := true, writes := [(REG_CTRL, s.raw_r1 ^^^ MASK_EN0)] }
    else if ch = CH_1 then { running := true, writes := [(REG_CTRL, s.raw_r1 ^^^ MASK_EN1)] }
    else if ch = k.KEY_UP then
      let next_val := toUInt32 (dac_val + 100)
      let next_val := if next_val > 4095 then 4095 else next_val
      { running := true, writes := [(REG_DATA, next_val)] }
    else if ch = k.KEY_DOWN then
      let next_val := if dac_val ≥ 100 then toUInt32 (dac_val - 100) else 0
      { running := true, writes := [(REG_DATA, next_val)] }
    else if ch = k.KEY_RIGHT then
      if dac_val < 4095 then { running := true, writes := [(REG_DATA, toUInt32 (dac_val + 1))] }
      else { running := true, writes := [] }
    else if ch = k.KEY_LEFT then
      if dac_val > 0 then { running := true, writes := [(REG_DATA, toUInt32 (dac_val - 1))] }
      else { running := true, writes := [] }
    else if ch = CH_rbracket then
      { running := true, writes := [(REG_PRE, u32_add s.raw_r2 1)] }
    else if ch = CH_lbracket then
      if s.raw_r2 > 0 then { running := true, writes := [(REG_PRE, u32_sub s.raw_r2 1)] }
      else { running := true, writes := [] }
    else { running := true, writes := [] }
  else { running := true, writes := [] }

/-- One pass through the loop body on the window `m` with `getch()`
returning `ch`: the `running` flag and the window afterwards. -/
def pass (k : Curses) (m : Regs) (ch : Int) : Bool × Regs :=
  let st := dispatch k m.snapshot ch
  (st.running, m.writeAll st.writes)

end DacTool

/-! ## `gpiod-dac-test.c` -/

namespace GpiodDacTest

/-- The C library's `isspace` in the C locale: space, and the control
characters from horizontal tab (9) to carriage return (13). -/
def isspace (c : Char) : Bool := c.toNat = 32 || (9 ≤ c.toNat && c.toNat ≤ 13)

/-- The C library's `isdigit`: the characters 48 to 57. -/
def isdigit (c : Char) : Bool := 48 ≤ c.toNat && c.toNat ≤ 57

/-- The decimal digits at the front of a string, read onto the value `acc`. -/
def strtol_digits : List Char → Nat → Nat
  | [], acc => acc
  | c :: cs, acc => if isdigit c then strtol_digits cs (10 * acc + (c.toNat - 48)) else acc

/-- The C library's `strtol(nptr, NULL, 10)` with a 64-bit `long`: leading
white space is skipped, an optional sign is read, then the decimal digits up
to the first other character (0 when there is none); a result outside the
range of `long` is replaced by `LONG_MIN` or `LONG_MAX`. -/
def strtol (nptr : List Char) : Int :=
  match nptr.dropWhile isspace with
  | [] => 0
  | c :: cs =>
    if c.toNat = 45 then max (-(strtol_digits cs 0 : Int)) (-9223372036854775808)
    else if c.toNat = 43 then min (strtol_digits cs 0 : Int) 9223372036854775807
    else min (strtol_digits (c :: cs) 0 : Int) 9223372036854775807

/-- Conversion of a `long` to `int`: the low 32 bits read as two's complement. -/
def toInt32 (i : Int) : Int := (i + 2147483648) % 4294967296 - 2147483648

/-- The C library's `atoi`, which is `(int) strtol(nptr, NULL, 10)`. -/
def atoi (nptr : String) : Int := toInt32 (strtol nptr.toList)

end GpiodDacTest

/-! ## Exactness of the `double` computations -/

/-- A rational number that a binary64 `double` holds exactly: `m * 2 ^ e` with
a significand `|m| < 2 ^ 53` and an exponent `-1074 ≤ e ≤ 971`.  An IEEE
operation whose exact result is such a number returns it unrounded. -/
def Binary64 (q : ℚ) : Prop :=
  ∃ m e : Int, |m| < 2 ^ 53 ∧ -1074 ≤ e ∧ e ≤ 971 ∧ q = (m : ℚ) * (2 : ℚ) ^ e

/-! ## Helper lemmas -/

/-- Masking with `0x0FFF` keeps the remainder modulo `2 ^ 12`. -/
theorem and_0FFF (n : Nat) : n &&& 0x0FFF = n % 4096 :=
  Nat.and_pow_two_sub_one_eq_mod n 12

/-- Masking with `0xFFFF` keeps the remainder modulo `2 ^ 16`. -/
theorem and_FFFF (n : Nat) : n &&& 0xFFFF = n % 65536 :=
  Nat.and_pow_two_sub_one_eq_mod n 16

/-- The decoded DAC value is the data word modulo `2 ^ 12`. -/
theorem dac_val_eq (r : Nat) : DacTool.dac_val r = r % 4096 := by
  unfold DacTool.dac_val toUInt16
  rw [and_0FFF]
  omega

/-- Validity of the key codes as a conjunction of inequalities. -/
theorem Curses.valid_iff (k : Curses) :
    k.Valid ↔
      ((k.ERR ≠ 113 ∧ k.ERR ≠ 109 ∧ k.ERR ≠ 48 ∧ k.ERR ≠ 49 ∧ k.ERR ≠ k.KEY_UP ∧
        k.ERR ≠ k.KEY_DOWN ∧ k.ERR ≠ k.KEY_RIGHT ∧ k.ERR ≠ k.KEY_LEFT ∧ k.ERR ≠ 93 ∧
        k.ERR ≠ 91) ∧
       (113 ≠ k.KEY_UP ∧ 113 ≠ k.KEY_DOWN ∧ 113 ≠ k.KEY_RIGHT ∧ 113 ≠ k.KEY_LEFT) ∧
       (109 ≠ k.KEY_UP ∧ 109 ≠ k.KEY_DOWN ∧ 109 ≠ k.KEY_RIGHT ∧ 109 ≠ k.KEY_LEFT) ∧
       (48 ≠ k.KEY_UP ∧ 48 ≠ k.KEY_DOWN ∧ 48 ≠ k.KEY_RIGHT ∧ 48 ≠ k.KEY_LEFT) ∧
       (49 ≠ k.KEY_UP ∧ 49 ≠ k.KEY_DOWN ∧ 49 ≠ k.KEY_RIGHT ∧ 49 ≠ k.KEY_LEFT) ∧
       (k.KEY_UP ≠ k.KEY_DOWN ∧ k.KEY_UP ≠ k.KEY_RIGHT ∧ k.KEY_UP ≠ k.KEY_LEFT ∧
        k.KEY_UP ≠ 93 ∧ k.KEY_UP ≠ 91) ∧
       (k.KEY_DOWN ≠ k.KEY_RIGHT ∧ k.KEY_DOWN ≠ k.KEY_LEFT ∧ k.KEY_DOWN ≠ 93 ∧
        k.KEY_DOWN ≠ 91) ∧
       (k.KEY_RIGHT ≠ k.KEY_LEFT ∧ k.KEY_RIGHT ≠ 93 ∧ k.KEY_RIGHT ≠ 91) ∧
       (k.KEY_LEFT ≠ 93 ∧ k.KEY_LEFT ≠ 91)) ∧
      (k.ERR ≠ 111 ∧ k.ERR ≠ 99 ∧ k.ERR ≠ 43 ∧ k.ERR ≠ 45) := by
  simp [Curses.Valid, dacLabels, adcLabels, CH_q, CH_m, CH_0, CH_1, CH_rbracket,
    CH_lbracket, CH_o, CH_c, CH_plus, CH_minus]
  tauto


/-- The tests a valid key-code assignment decides negatively, oriented as the
dispatchers evaluate them (`ch` against `ERR` and against the earlier labels). -/
theorem Curses.Valid.tests {k : Curses} (hk : k.Valid) :
    ((113 : Int) ≠ k.ERR ∧ (109 : Int) ≠ k.ERR ∧ (48 : Int) ≠ k.ERR ∧ (49 : Int) ≠ k.ERR ∧
      k.KEY_UP ≠ k.ERR ∧ k.KEY_DOWN ≠ k.ERR ∧ k.KEY_RIGHT ≠ k.ERR ∧ k.KEY_LEFT ≠ k.ERR ∧
      (93 : Int) ≠ k.ERR ∧ (91 : Int) ≠ k.ERR ∧
      (111 : Int) ≠ k.ERR ∧ (99 : Int) ≠ k.ERR ∧ (43 : Int) ≠ k.ERR ∧ (45 : Int) ≠ k.ERR) ∧
    (k.KEY_UP ≠ 113 ∧ k.KEY_UP ≠ 109 ∧ k.KEY_UP ≠ 48 ∧ k.KEY_UP ≠ 49) ∧
    (k.KEY_DOWN ≠ 113 ∧ k.KEY_DOWN ≠ 109 ∧ k.KEY_DOWN ≠ 48 ∧ k.KEY_DOWN ≠ 49 ∧
      k.KEY_DOWN ≠ k.KEY_UP) ∧
    (k.KEY_RIGHT ≠ 113 ∧ k.KEY_RIGHT ≠ 109 ∧ k.KEY_RIGHT ≠ 48 ∧ k.KEY_RIGHT ≠ 49 ∧
      k.KEY_RIGHT ≠ k.KEY_UP ∧ k.KEY_RIGHT ≠ k.KEY_DOWN) ∧
    (k.KEY_LEFT ≠ 113 ∧ k.KEY_LEFT ≠ 109 ∧ k.KEY_LEFT ≠ 48 ∧ k.KEY_LEFT ≠ 49 ∧
      k.KEY_LEFT ≠ k.KEY_UP ∧ k.KEY_LEFT ≠ k.KEY_DOWN ∧ k.KEY_LEFT ≠ k.KEY_RIGHT) ∧
    ((93 : Int) ≠ k.KEY_UP ∧ (93 : Int) ≠ k.KEY_DOWN ∧ (93 : Int) ≠ k.KEY_RIGHT ∧
      (93 : Int) ≠ k.KEY_LEFT) ∧
    ((91 : Int) ≠ k.KEY_UP ∧ (91 : Int) ≠ k.KEY_DOWN ∧ (91 : Int) ≠ k.KEY_RIGHT ∧
      (91 : Int) ≠ k.KEY_LEFT) := by
  obtain ⟨⟨⟨e1, e2, e3, e4, e5, e6, e7, e8, e9, e10⟩, ⟨q1, q2, q3, q4⟩, ⟨m1, m2, m3, m4⟩,
    ⟨z1, z2, z3, z4⟩, ⟨o1, o2, o3, o4⟩, ⟨u1, u2, u3, u4, u5⟩, ⟨d1, d2, d3, d4⟩, ⟨r1, r2, r3⟩,
    ⟨l1, l2⟩⟩, a1, a2, a3, a4⟩ := (Curses.valid_iff k).mp hk
  exact ⟨⟨e1.symm, e2.symm, e3.symm, e4.symm, e5.symm, e6.symm, e7.symm, e8.symm, e9.symm,
      e10.symm, a1.symm, a2.symm, a3.symm, a4.symm⟩,
    ⟨q1.symm, m1.symm, z1.symm, o1.symm⟩,
    ⟨q2.symm, m2.symm, z2.symm, o2.symm, u1.symm⟩,
    ⟨q3.symm, m3.symm, z3.symm, o3.symm, u2.symm, d1.symm⟩,
    ⟨q4.symm, m4.symm, z4.symm, o4.symm, u3.symm, d2.symm, r1.symm⟩,
    ⟨u4.symm, d3.symm, r2.symm, l1.symm⟩,
    ⟨u5.symm, d4.symm, r3.symm, l2.symm⟩⟩

/-- The ADC dispatcher, key by key. -/
theorem adc_dispatch_cases {k : Curses} (hk : k.Valid) (s : Snapshot) :
    AdcTool.dispatch k s CH_q = { running := false, writes := [] } ∧
    AdcTool.dispatch k s CH_o = { running := true, writes := [(REG_CTRL, s.raw_r1 ^^^ 0x01)] } ∧
    AdcTool.dispatch k s CH_c = { running := true, writes := [(REG_CTRL, s.raw_r1 ^^^ 0x02)] } ∧
    AdcTool.dispatch k s CH_plus =
      (if s.raw_r2 > 0 then { running := true, writes := [(REG_PRE, u32_sub s.raw_r2 1)] }
       else { running := true, writes := [] }) ∧
    AdcTool.dispatch k s CH_minus =
      { running := true, writes := [(REG_PRE, u32_add s.raw_r2 1)] } := by
  obtain ⟨⟨e1, e2, e3, e4, e5, e6, e7, e8, e9, e10, a1, a2, a3, a4⟩, -⟩ := hk.tests
  simp [AdcTool.dispatch, CH_q, CH_o, CH_c, CH_plus, CH_minus, e1, a1, a2, a3, a4]

/-- The DAC dispatcher, key by key. -/
theorem dac_dispatch_cases {k : Curses} (hk : k.Valid) (s : Snapshot) :
    DacTool.dispatch k s CH_q = { running := false, writes := [] } ∧
    DacTool.dispatch k s CH_m =
      { running := true, writes := [(REG_CTRL, s.raw_r1 ^^^ DacTool.MASK_MODE)] } ∧
    DacTool.dispatch k s CH_0 =
      { running := true, writes := [(REG_CTRL, s.raw_r1 ^^^ DacTool.MASK_EN0)] } ∧
    DacTool.dispatch k s CH_1 =
      { running := true, writes := [(REG_CTRL, s.raw_r1 ^^^ DacTool.MASK_EN1)] } ∧
    DacTool.dispatch k s k.KEY_UP =
      { running := true,
        writes := [(REG_DATA,
          if toUInt32 ((DacTool.dac_val s.raw_r0 : Nat) + 100) > 4095 then 4095
          else toUInt32 ((DacTool.dac_val s.raw_r0 : Nat) + 100))] } ∧
    DacTool.dispatch k s k.KEY_DOWN =
      { running := true,
        writes := [(REG_DATA,
          if ((DacTool.dac_val s.raw_r0 : Nat) : Int) ≥ 100
          then toUInt32 ((DacTool.dac_val s.raw_r0 : Nat) - 100) else 0)] } ∧
    DacTool.dispatch k s k.KEY_RIGHT =
      (if ((DacTool.dac_val s.raw_r0 : Nat) : Int) < 4095 then
        { running := true,
          writes := [(REG_DATA, toUInt32 ((DacTool.dac_val s.raw_r0 : Nat) + 1))] }
       else { running := true, writes := [] }) ∧
    DacTool.dispatch k s k.KEY_LEFT =
      (if ((DacTool.dac_val s.raw_r0 : Nat) : Int) > 0 then
        { running := true,
          writes := [(REG_DATA, toUInt32 ((DacTool.dac_val s.raw_r0 : Nat) - 1))] }
       else { running := true, writes := [] }) ∧
    DacTool.dispatch k s CH_rbracket =
      { running := true, writes := [(REG_PRE, u32_add s.raw_r2 1)] } ∧
    DacTool.dispatch k s CH_lbracket =
      (if s.raw_r2 > 0 then { running := true, writes := [(REG_PRE, u32_sub s.raw_r2 1)] }
       else { running := true, writes := [] }) := by
  obtain ⟨⟨e1, e2, e3, e4, e5, e6, e7, e8, e9, e10, a1, a2, a3, a4⟩, ⟨u1, u2, u3, u4⟩,
    ⟨d1, d2, d3, d4, d5⟩, ⟨r1, r2, r3, r4, r5, r6⟩, ⟨l1, l2, l3, l4, l5, l6, l7⟩,
    ⟨b1, b2, b3, b4⟩, ⟨c1, c2, c3, c4⟩⟩ := hk.tests
  refine ⟨?_, ?_, ?_, ?_, ?_, ?_, ?_, ?_, ?_, ?_⟩ <;>
    simp [DacTool.dispatch, CH_q, CH_m, CH_0, CH_1, CH_rbracket, CH_lbracket, *]


/-- The window after a pass that performs no store. -/
theorem writeAll_nil (m : Regs) : m.writeAll [] = m := rfl

/-- The window after a pass that performs one store. -/
theorem writeAll_one (m : Regs) (off v : Nat) : m.writeAll [(off, v)] = m.write off v := rfl

/-- The flag returned by an ADC pass is the dispatcher's. -/
theorem adc_pass_running (k : Curses) (m : Regs) (ch : Int) :
    (AdcTool.pass k m ch).1 = (AdcTool.dispatch k m.snapshot ch).running := rfl

/-- The window returned by an ADC pass is the old one after the dispatcher's stores. -/
theorem adc_pass_regs (k : Curses) (m : Regs) (ch : Int) :
    (AdcTool.pass k m ch).2 = m.writeAll (AdcTool.dispatch k m.snapshot ch).writes := rfl

/-- The flag returned by a DAC pass is the dispatcher's. -/
theorem dac_pass_running (k : Curses) (m : Regs) (ch : Int) :
    (DacTool.pass k m ch).1 = (DacTool.dispatch k m.snapshot ch).running := rfl

/-- The window returned by a DAC pass is the old one after the dispatcher's stores. -/
theorem dac_pass_regs (k : Curses) (m : Regs) (ch : Int) :
    (DacTool.pass k m ch).2 = m.writeAll (DacTool.dispatch k m.snapshot ch).writes := rfl

/-- A key other than `q` leaves the ADC loop running. -/
theorem adc_running_of_ne (k : Curses) (s : Snapshot) (ch : Int) (hq : ch ≠ CH_q) :
    (AdcTool.dispatch k s ch).running = true := by
  unfold AdcTool.dispatch
  rw [if_neg hq]
  split_ifs <;> rfl

/-- A key other than `q` leaves the DAC loop running. -/
theorem dac_running_of_ne (k : Curses) (s : Snapshot) (ch : Int) (hq : ch ≠ CH_q) :
    (DacTool.dispatch k s ch).running = true := by
  unfold DacTool.dispatch
  simp only [apply_ite Step.running, if_neg hq, ite_self]

/-! ## Theorems -/

/-- C1: DAC value stepping is clamped to [0,4095].  With `v` the low 12 bits of
the data word read by the pass, the low 12 bits of the data word after the
pass are `min (v + 100) 4095` for `KEY_UP`, `max (v - 100) 0` for `KEY_DOWN`,
`min (v + 1) 4095` for `KEY_RIGHT` and `max (v - 1) 0` for `KEY_LEFT`. -/
theorem dac_value_step_clamped (k : Curses) (hk : k.Valid) (m : Regs) :
    (((DacTool.pass k m k.KEY_UP).2.data &&& 0x0FFF : Nat) : Int)
      = min (((m.data &&& 0x0FFF : Nat) : Int) + 100) 4095 ∧
    (((DacTool.pass k m k.KEY_DOWN).2.data &&& 0x0FFF : Nat) : Int)
      = max (((m.data &&& 0x0FFF : Nat) : Int) - 100) 0 ∧
    (((DacTool.pass k m k.KEY_RIGHT).2.data &&& 0x0FFF : Nat) : Int)
      = min (((m.data &&& 0x0FFF : Nat) : Int) + 1) 4095 ∧
    (((DacTool.pass k m k.KEY_LEFT).2.data &&& 0x0FFF : Nat) : Int)
      = max (((m.data &&& 0x0FFF : Nat) : Int) - 1) 0 := by
  obtain ⟨-, -, -, -, hu, hd, hr, hl, -, -⟩ := dac_dispatch_cases hk m.snapshot
  have hv := dac_val_eq m.data
  simp only [DacTool.pass, hu, hd, hr, hl, and_0FFF]
  simp only [Regs.snapshot, Regs.read, REG_DATA, if_true] 
  refine ⟨?_, ?_, ?_, ?_⟩
  · simp only [writeAll_one, Regs.write, REG_DATA, if_true, toUInt32]
    split_ifs <;> omega
  · simp only [writeAll_one, Regs.write, REG_DATA, if_true, toUInt32]
    split_ifs <;> omega
  · split_ifs
    · simp only [writeAll_one, Regs.write, REG_DATA, if_true, toUInt32]
      omega
    · simp only [writeAll_nil]
      omega
  · split_ifs
    · simp only [writeAll_one, Regs.write, REG_DATA, if_true, toUInt32]
      omega
    · simp only [writeAll_nil]
      omega

/-- C1 at the values of the specification: from 4050 the coarse increase gives
4095, and from 0 the fine decrease gives 0. -/
theorem dac_value_step_clamped_witness :
    ncurses.Valid ∧
    (((DacTool.pass ncurses { data := 4050, ctrl := 0, pre := 0 } ncurses.KEY_UP).2.data
        &&& 0x0FFF : Nat) : Int) = 4095 ∧
    (((DacTool.pass ncurses { data := 0, ctrl := 0, pre := 0 } ncurses.KEY_LEFT).2.data
        &&& 0x0FFF : Nat) : Int) = 0 :=
  ⟨by decide,
   (dac_value_step_clamped ncurses (by decide) { data := 4050, ctrl := 0, pre := 0 }).1,
   (dac_value_step_clamped ncurses (by decide) { data := 0, ctrl := 0, pre := 0 }).2.2.2⟩


/-- C2: toggling a control bit twice returns CTRL to its original value.  For
each toggle key (ADC `o`, `c`; DAC `m`, `0`, `1`), a pass on a window whose
control word is `c`, followed by a pass with the same key on a window whose
control word is the one just written, leaves the control word equal to `c`. -/
theorem toggle_twice_restores_ctrl (k : Curses) (hk : k.Valid) (m m1 : Regs)
    (hc : m.ctrl < 4294967296) :
    (∀ ch ∈ [CH_o, CH_c], m1.ctrl = (AdcTool.pass k m ch).2.ctrl →
      (AdcTool.pass k m1 ch).2.ctrl = m.ctrl) ∧
    (∀ ch ∈ [CH_m, CH_0, CH_1], m1.ctrl = (DacTool.pass k m ch).2.ctrl →
      (DacTool.pass k m1 ch).2.ctrl = m.ctrl) := by
  obtain ⟨-, ao, ac, -, -⟩ := adc_dispatch_cases hk m.snapshot
  obtain ⟨-, ao1, ac1, -, -⟩ := adc_dispatch_cases hk m1.snapshot
  obtain ⟨-, dm, d0, d1, -⟩ := dac_dispatch_cases hk m.snapshot
  obtain ⟨-, dm1, d01, d11, -⟩ := dac_dispatch_cases hk m1.snapshot
  have key : ∀ b : Nat, b < 4294967296 → ∀ c0 c1 : Nat, c0 < 4294967296 →
      c1 = (c0 ^^^ b) % 4294967296 → (c1 ^^^ b) % 4294967296 = c0 := by
    intro b hb c0 c1 h0 h1
    have hx : c0 ^^^ b < 2 ^ 32 := Nat.xor_lt_two_pow (n := 32) h0 hb
    have hx1 : c0 ^^^ b < 4294967296 := hx
    rw [h1, Nat.mod_eq_of_lt hx1, Nat.xor_cancel_right, Nat.mod_eq_of_lt h0]
  constructor
  · intro ch hch h1
    simp only [List.mem_cons, List.mem_singleton, List.not_mem_nil, or_false] at hch
    rcases hch with rfl | rfl
    · simp only [AdcTool.pass, ao, ao1] at h1 ⊢
      simp only [writeAll_one, Regs.write, Regs.snapshot, Regs.read, REG_CTRL, REG_DATA,
        one_ne_zero, if_false, if_true] at h1 ⊢
      exact key 1 (by norm_num) _ _ hc h1
    · simp only [AdcTool.pass, ac, ac1] at h1 ⊢
      simp only [writeAll_one, Regs.write, Regs.snapshot, Regs.read, REG_CTRL, REG_DATA,
        one_ne_zero, if_false, if_true] at h1 ⊢
      exact key 2 (by norm_num) _ _ hc h1
  · intro ch hch h1
    simp only [List.mem_cons, List.mem_singleton, List.not_mem_nil, or_false] at hch
    rcases hch with rfl | rfl | rfl
    · simp only [DacTool.pass, dm, dm1] at h1 ⊢
      simp only [writeAll_one, Regs.write, Regs.snapshot, Regs.read, REG_CTRL, REG_DATA,
        one_ne_zero, if_false, if_true] at h1 ⊢
      exact key _ (by decide) _ _ hc h1
    · simp only [DacTool.pass, d0, d01] at h1 ⊢
      simp only [writeAll_one, Regs.write, Regs.snapshot, Regs.read, REG_CTRL, REG_DATA,
        one_ne_zero, if_false, if_true] at h1 ⊢
      exact key _ (by decide) _ _ hc h1
    · simp only [DacTool.pass, d1, d11] at h1 ⊢
      simp only [writeAll_one, Regs.write, Regs.snapshot, Regs.read, REG_CTRL, REG_DATA,
        one_ne_zero, if_false, if_true] at h1 ⊢
      exact key _ (by decide) _ _ hc h1


/-- C2 at the control word 5: two passes with `o` (ADC) and two passes with
`m` (DAC) give the control word 5 back. -/
theorem toggle_twice_restores_ctrl_witness :
    ncurses.Valid ∧ (5 : Nat) < 4294967296 ∧
    (AdcTool.pass ncurses
      (AdcTool.pass ncurses { data := 0, ctrl := 5, pre := 0 } CH_o).2 CH_o).2.ctrl = 5 ∧
    (DacTool.pass ncurses
      (DacTool.pass ncurses { data := 0, ctrl := 5, pre := 0 } CH_m).2 CH_m).2.ctrl = 5 :=
  ⟨by decide, by decide,
   (toggle_twice_restores_ctrl ncurses (by decide) { data := 0, ctrl := 5, pre := 0 }
      (AdcTool.pass ncurses { data := 0, ctrl := 5, pre := 0 } CH_o).2 (by decide)).1
      CH_o (by simp) rfl,
   (toggle_twice_restores_ctrl ncurses (by decide) { data := 0, ctrl := 5, pre := 0 }
      (DacTool.pass ncurses { data := 0, ctrl := 5, pre := 0 } CH_m).2 (by decide)).2
      CH_m (by simp) rfl⟩

/-- C3: in both consoles a pass clears `running` exactly when the key is `q`,
and for a key outside the console's command set, which includes the "no
input" result `ERR`, the pass performs no store and leaves DATA, CTRL and
PRESCALE unchanged. -/
theorem quit_only_and_frame (k : Curses) (hk : k.Valid) (m : Regs) (ch : Int) :
    ((AdcTool.pass k m ch).1 = false ↔ ch = CH_q) ∧
    ((DacTool.pass k m ch).1 = false ↔ ch = CH_q) ∧
    (ch ∉ adcLabels →
      (AdcTool.dispatch k m.snapshot ch).writes = [] ∧ (AdcTool.pass k m ch).2 = m) ∧
    (ch ∉ dacLabels k →
      (DacTool.dispatch k m.snapshot ch).writes = [] ∧ (DacTool.pass k m ch).2 = m) ∧
    k.ERR ∉ adcLabels ∧ k.ERR ∉ dacLabels k := by
  obtain ⟨⟨e1, e2, e3, e4, e5, e6, e7, e8, e9, e10, a1, a2, a3, a4⟩, -⟩ := hk.tests
  refine ⟨?_, ?_, ?_, ?_, ?_, ?_⟩
  · rw [adc_pass_running]
    by_cases hq : ch = CH_q
    · subst hq
      rw [(adc_dispatch_cases hk m.snapshot).1]
      exact ⟨fun _ => rfl, fun _ => rfl⟩
    · rw [adc_running_of_ne k m.snapshot ch hq]
      exact ⟨fun h => absurd h (by decide), fun h => absurd h hq⟩
  · rw [dac_pass_running]
    by_cases hq : ch = CH_q
    · subst hq
      rw [(dac_dispatch_cases hk m.snapshot).1]
      exact ⟨fun _ => rfl, fun _ => rfl⟩
    · rw [dac_running_of_ne k m.snapshot ch hq]
      exact ⟨fun h => absurd h (by decide), fun h => absurd h hq⟩
  · intro h
    simp only [adcLabels, List.mem_cons, List.mem_singleton, List.not_mem_nil, or_false,
      not_or] at h
    obtain ⟨h1, h2, h3, h4, h5⟩ := h
    have hw : (AdcTool.dispatch k m.snapshot ch).writes = [] := by
      simp only [AdcTool.dispatch, apply_ite Step.writes, if_neg h1, if_neg h2, if_neg h3,
        if_neg h4, if_neg h5, ite_self]
    exact ⟨hw, by rw [adc_pass_regs, hw, writeAll_nil]⟩
  · intro h
    simp only [dacLabels, List.mem_cons, List.mem_singleton, List.not_mem_nil, or_false,
      not_or] at h
    obtain ⟨h1, h2, h3, h4, h5, h6, h7, h8, h9, h10⟩ := h
    have hw : (DacTool.dispatch k m.snapshot ch).writes = [] := by
      simp only [DacTool.dispatch, apply_ite Step.writes, if_neg h1, if_neg h2, if_neg h3,
        if_neg h4, if_neg h5, if_neg h6, if_neg h7, if_neg h8, if_neg h9, if_neg h10, ite_self]
    exact ⟨hw, by rw [dac_pass_regs, hw, writeAll_nil]⟩
  · simp only [adcLabels, CH_q, CH_o, CH_c, CH_plus, CH_minus, List.mem_cons,
      List.mem_singleton, List.not_mem_nil, or_false, not_or]
    exact ⟨e1.symm, a1.symm, a2.symm, a3.symm, a4.symm⟩
  · simp only [dacLabels, CH_q, CH_m, CH_0, CH_1, CH_rbracket, CH_lbracket, List.mem_cons,
      List.mem_singleton, List.not_mem_nil, or_false, not_or]
    exact ⟨e1.symm, e2.symm, e3.symm, e4.symm, e5.symm, e6.symm, e7.symm, e8.symm,
      e9.symm, e10.symm⟩


/-- C3 at the values of ncurses, with the window (7, 3, 9): the key `x` (120)
is outside both command sets, keeps both loops running and leaves the window
as it was. -/
theorem quit_only_and_frame_witness :
    ncurses.Valid ∧
    ((AdcTool.pass ncurses { data := 7, ctrl := 3, pre := 9 } 120).1 = false ↔ (120 : Int) = CH_q) ∧
    (AdcTool.pass ncurses { data := 7, ctrl := 3, pre := 9 } 120).2
      = { data := 7, ctrl := 3, pre := 9 } ∧
    (DacTool.pass ncurses { data := 7, ctrl := 3, pre := 9 } 120).2
      = { data := 7, ctrl := 3, pre := 9 } :=
  ⟨by decide,
   (quit_only_and_frame ncurses (by decide) { data := 7, ctrl := 3, pre := 9 } 120).1,
   ((quit_only_and_frame ncurses (by decide) { data := 7, ctrl := 3, pre := 9 } 120).2.2.1
      (by decide)).2,
   ((quit_only_and_frame ncurses (by decide) { data := 7, ctrl := 3, pre := 9 } 120).2.2.2.1
      (by decide)).2⟩

/-- C5: prescaler stepping saturates at 0 and has no upper clamp.  On a window
whose prescaler word is `p`, the decrement key (ADC `+`, DAC `[`) leaves the
window with prescaler `p - 1` when `p > 0` and `0` when `p = 0`; the
increment key (ADC `-`, DAC `]`) leaves it with `(p + 1) % 2 ^ 32`; in all four
cases the data and control words are left as they were and every store of the
pass goes to the prescaler offset. -/
theorem prescaler_step_saturates (k : Curses) (hk : k.Valid) (m : Regs)
    (hp : m.pre < 4294967296) :
    ((AdcTool.pass k m CH_plus).2 = { m with pre := if 0 < m.pre then m.pre - 1 else 0 } ∧
     (DacTool.pass k m CH_lbracket).2 = { m with pre := if 0 < m.pre then m.pre - 1 else 0 } ∧
     (AdcTool.pass k m CH_minus).2 = { m with pre := (m.pre + 1) % 4294967296 } ∧
     (DacTool.pass k m CH_rbracket).2 = { m with pre := (m.pre + 1) % 4294967296 }) ∧
    ((∀ w ∈ (AdcTool.dispatch k m.snapshot CH_plus).writes, w.1 = REG_PRE) ∧
     (∀ w ∈ (DacTool.dispatch k m.snapshot CH_lbracket).writes, w.1 = REG_PRE) ∧
     (∀ w ∈ (AdcTool.dispatch k m.snapshot CH_minus).writes, w.1 = REG_PRE) ∧
     (∀ w ∈ (DacTool.dispatch k m.snapshot CH_rbracket).writes, w.1 = REG_PRE)) := by
  obtain ⟨-, -, -, ap, am⟩ := adc_dispatch_cases hk m.snapshot
  obtain ⟨-, -, -, -, -, -, -, -, dr, dl⟩ := dac_dispatch_cases hk m.snapshot
  have hs : m.snapshot.raw_r2 = m.pre := rfl
  have hdec : ∀ st : Step,
      st = (if m.pre > 0 then { running := true, writes := [(REG_PRE, u32_sub m.pre 1)] }
            else { running := true, writes := [] }) →
      m.writeAll st.writes = { m with pre := if 0 < m.pre then m.pre - 1 else 0 } ∧
      ∀ w ∈ st.writes, w.1 = REG_PRE := by
    intro st hst
    subst hst
    by_cases h0 : m.pre > 0
    · rw [if_pos h0, if_pos h0]
      refine ⟨?_, by simp⟩
      have e : u32_sub m.pre 1 % 4294967296 = m.pre - 1 := by
        unfold u32_sub
        omega
      simp only [writeAll_one, Regs.write, REG_PRE, REG_DATA, REG_CTRL, e]
      simp
    · rw [if_neg h0, if_neg h0]
      refine ⟨?_, by simp⟩
      have e : m.pre = 0 := by omega
      rw [writeAll_nil]
      cases m
      simp_all
  have hinc : ∀ st : Step,
      st = { running := true, writes := [(REG_PRE, u32_add m.pre 1)] } →
      m.writeAll st.writes = { m with pre := (m.pre + 1) % 4294967296 } ∧
      ∀ w ∈ st.writes, w.1 = REG_PRE := by
    intro st hst
    subst hst
    refine ⟨?_, by simp⟩
    have e : u32_add m.pre 1 % 4294967296 = (m.pre + 1) % 4294967296 := by
      unfold u32_add
      omega
    simp only [writeAll_one, Regs.write, REG_PRE, REG_DATA, REG_CTRL, e]
    simp
  rw [hs] at ap am dr dl
  rw [adc_pass_regs, adc_pass_regs, dac_pass_regs, dac_pass_regs]
  exact ⟨⟨(hdec _ ap).1, (hdec _ dl).1, (hinc _ am).1, (hinc _ dr).1⟩,
    (hdec _ ap).2, (hdec _ dl).2, (hinc _ am).2, (hinc _ dr).2⟩


/-- C5 at the ends of the range: incrementing the prescaler 4294967295 wraps
to 0, and decrementing the prescaler 0 leaves 0. -/
theorem prescaler_step_saturates_witness :
    ncurses.Valid ∧
    (AdcTool.pass ncurses { data := 0, ctrl := 0, pre := 4294967295 } CH_minus).2
      = { data := 0, ctrl := 0, pre := 0 } ∧
    (DacTool.pass ncurses { data := 0, ctrl := 0, pre := 4294967295 } CH_rbracket).2
      = { data := 0, ctrl := 0, pre := 0 } ∧
    (AdcTool.pass ncurses { data := 0, ctrl := 0, pre := 0 } CH_plus).2
      = { data := 0, ctrl := 0, pre := 0 } ∧
    (DacTool.pass ncurses { data := 0, ctrl := 0, pre := 0 } CH_lbracket).2
      = { data := 0, ctrl := 0, pre := 0 } :=
  ⟨by decide,
   (prescaler_step_saturates ncurses (by decide) { data := 0, ctrl := 0, pre := 4294967295 }
      (by decide)).1.2.2.1,
   (prescaler_step_saturates ncurses (by decide) { data := 0, ctrl := 0, pre := 4294967295 }
      (by decide)).1.2.2.2,
   (prescaler_step_saturates ncurses (by decide) { data := 0, ctrl := 0, pre := 0 }
      (by decide)).1.1,
   (prescaler_step_saturates ncurses (by decide) { data := 0, ctrl := 0, pre := 0 }
      (by decide)).1.2.1⟩

/-- C10, as the code has it: for every recognized non-quit key and every
snapshot the dispatcher, a function of this pass's snapshot, performs at most
one store, and it performs exactly one unless a guard blocks it: the
prescaler decrement (ADC `+`, DAC `[`) at prescaler 0, `KEY_RIGHT` at value
4095 and `KEY_LEFT` at value 0 perform none. -/
theorem dispatch_at_most_one_write (k : Curses) (hk : k.Valid) (s : Snapshot) :
    (∀ ch ∈ [CH_o, CH_c, CH_plus, CH_minus],
      (AdcTool.dispatch k s ch).writes.length ≤ 1 ∧
      ((AdcTool.dispatch k s ch).writes.length = 1 ↔ ¬ (ch = CH_plus ∧ s.raw_r2 = 0))) ∧
    (∀ ch ∈ [CH_m, CH_0, CH_1, k.KEY_UP, k.KEY_DOWN, k.KEY_RIGHT, k.KEY_LEFT, CH_rbracket,
        CH_lbracket],
      (DacTool.dispatch k s ch).writes.length ≤ 1 ∧
      ((DacTool.dispatch k s ch).writes.length = 1 ↔
        ¬ ((ch = k.KEY_RIGHT ∧ DacTool.dac_val s.raw_r0 = 4095) ∨
           (ch = k.KEY_LEFT ∧ DacTool.dac_val s.raw_r0 = 0) ∨
           (ch = CH_lbracket ∧ s.raw_r2 = 0)))) := by
  obtain ⟨-, ao, ac, ap, am⟩ := adc_dispatch_cases hk s
  obtain ⟨-, dm, d0, d1, du, dd, dr, dl, drb, dlb⟩ := dac_dispatch_cases hk s
  obtain ⟨-, -, -, ⟨r1, r2, r3, r4, r5, r6⟩, ⟨l1, l2, l3, l4, l5, l6, l7⟩,
    ⟨b1, b2, b3, b4⟩, ⟨c1, c2, c3, c4⟩⟩ := hk.tests
  have hv := dac_val_eq s.raw_r0
  constructor
  · intro ch hch
    simp only [List.mem_cons, List.mem_singleton, List.not_mem_nil, or_false] at hch
    rcases hch with rfl | rfl | rfl | rfl
    · rw [ao]; simp [CH_o, CH_plus]
    · rw [ac]; simp [CH_c, CH_plus]
    · rw [ap]
      by_cases h0 : s.raw_r2 > 0
      · rw [if_pos h0]
        have : s.raw_r2 ≠ 0 := by omega
        simp [this]
      · rw [if_neg h0]
        have : s.raw_r2 = 0 := by omega
        simp [this]
    · rw [am]; simp [CH_minus, CH_plus]
  · intro ch hch
    simp only [List.mem_cons, List.mem_singleton, List.not_mem_nil, or_false] at hch
    rcases hch with rfl | rfl | rfl | rfl | rfl | rfl | rfl | rfl | rfl
    · rw [dm]; simp [CH_m, CH_lbracket, r2.symm, l2.symm]
    · rw [d0]; simp [CH_0, CH_lbracket, r3.symm, l3.symm]
    · rw [d1]; simp [CH_1, CH_lbracket, r4.symm, l4.symm]
    · rw [du]; simp [CH_lbracket, r5.symm, l5.symm, c1.symm]
    · rw [dd]; simp [CH_lbracket, r6.symm, l6.symm, c2.symm]
    · rw [dr]
      by_cases h0 : ((DacTool.dac_val s.raw_r0 : Nat) : Int) < 4095
      · rw [if_pos h0]
        have : DacTool.dac_val s.raw_r0 ≠ 4095 := by omega
        simp [CH_lbracket, l7.symm, c3.symm, this]
      · rw [if_neg h0]
        have : DacTool.dac_val s.raw_r0 = 4095 := by omega
        simp [this]
    · rw [dl]
      by_cases h0 : ((DacTool.dac_val s.raw_r0 : Nat) : Int) > 0
      · rw [if_pos h0]
        have : DacTool.dac_val s.raw_r0 ≠ 0 := by omega
        simp [CH_lbracket, l7, c4.symm, this]
      · rw [if_neg h0]
        have : DacTool.dac_val s.raw_r0 = 0 := by omega
        simp [this]
    · rw [drb]; simp [CH_rbracket, CH_lbracket, b3, b4]
    · rw [dlb]
      by_cases h0 : s.raw_r2 > 0
      · rw [if_pos h0]
        have : s.raw_r2 ≠ 0 := by omega
        simp [CH_lbracket, c3, c4, this]
      · rw [if_neg h0]
        have : s.raw_r2 = 0 := by omega
        simp [this]

/-- C10 fails as stated: with the prescaler at 0 the ADC key `+` performs no
store, and so do the DAC keys `[` at prescaler 0, `KEY_RIGHT` at value 4095
and `KEY_LEFT` at value 0. -/
theorem dispatch_one_write_counterexample :
    (AdcTool.dispatch ncurses { raw_r0 := 0, raw_r1 := 0, raw_r2 := 0 } CH_plus).writes.length ≠ 1 ∧
    (DacTool.dispatch ncurses { raw_r0 := 0, raw_r1 := 0, raw_r2 := 0 } CH_lbracket).writes.length
      ≠ 1 ∧
    (DacTool.dispatch ncurses { raw_r0 := 4095, raw_r1 := 0, raw_r2 := 0 }
      ncurses.KEY_RIGHT).writes.length ≠ 1 ∧
    (DacTool.dispatch ncurses { raw_r0 := 0, raw_r1 := 0, raw_r2 := 0 }
      ncurses.KEY_LEFT).writes.length ≠ 1 := by
  decide

/-- C10 as amended, at the values of ncurses and the snapshot (4095, 0, 0):
`KEY_UP` performs one store and `KEY_RIGHT` performs none. -/
theorem dispatch_at_most_one_write_witness :
    ncurses.Valid ∧
    (DacTool.dispatch ncurses { raw_r0 := 4095, raw_r1 := 0, raw_r2 := 0 }
      ncurses.KEY_UP).writes.length ≤ 1 ∧
    (AdcTool.dispatch ncurses { raw_r0 := 4095, raw_r1 := 0, raw_r2 := 0 }
      CH_o).writes.length ≤ 1 :=
  ⟨by decide,
   ((dispatch_at_most_one_write ncurses (by decide)
      { raw_r0 := 4095, raw_r1 := 0, raw_r2 := 0 }).2 ncurses.KEY_UP (by simp)).1,
   ((dispatch_at_most_one_write ncurses (by decide)
      { raw_r0 := 4095, raw_r1 := 0, raw_r2 := 0 }).1 CH_o (by simp)).1⟩


/-! ## Decoder -/

/-- The decoded sample in terms of the remainder modulo `2 ^ 16`. -/
theorem adc_val_eq (r : Nat) :
    AdcTool.adc_val r =
      if r % 65536 < 32768 then ((r % 65536 : Nat) : Int) else ((r % 65536 : Nat) : Int) - 65536 := by
  unfold AdcTool.adc_val toInt16
  rw [and_FFFF, Nat.mod_mod]

/-- Flipping bit 16 of a word does not change its low 16 bits. -/
theorem xor_bit16_mod (r : Nat) : (r ^^^ 65536) % 65536 = r % 65536 := by
  apply Nat.eq_of_testBit_eq
  intro i
  have h : (65536 : Nat) = 2 ^ 16 := by norm_num
  rw [h, Nat.testBit_mod_two_pow, Nat.testBit_mod_two_pow, Nat.testBit_xor, Nat.testBit_two_pow]
  by_cases hi : i < 16
  · have : ¬ (16 = i) := by omega
    simp [hi, this]
  · simp [hi]

/-- C4 at the failing input: for the prescaler word 4294967295 the `uint32_t`
sum `raw_r2 + 1` wraps to 0, so the divisor computed by both consoles is zero
and the quotient is not a frequency. -/
theorem freq_divisor_zero_at_max :
    AdcTool.freq_divisor 4294967295 = 0 ∧ DacTool.freq_divisor 4294967295 = 0 ∧
    AdcTool.freq_mhz 4294967295 = none ∧ DacTool.freq_mhz 4294967295 = none := by
  refine ⟨by decide, by decide, ?_, ?_⟩
  · simp [AdcTool.freq_mhz, AdcTool.freq_divisor, u32_add]
  · simp [DacTool.freq_mhz, DacTool.freq_divisor, u32_add]

/-- Below the last prescaler word the decoded frequency is as the formula has
it: for `p < 4294967295` the divisor is `2 * (p + 1)`, it is not zero, and the
quotient is `100 / (2 * (p + 1))` in both consoles; the prescalers 0, 1 and 99
give 50, 25 and 1/2 MHz. -/
theorem freq_mhz_below_max (p : Nat) (hp : p < 4294967295) :
    AdcTool.freq_divisor p = 2 * (p + 1) ∧ AdcTool.freq_divisor p ≠ 0 ∧
    DacTool.freq_divisor p = 2 * (p + 1) ∧ DacTool.freq_divisor p ≠ 0 ∧
    AdcTool.freq_mhz p = some (100 / (2 * ((p : ℚ) + 1))) ∧
    DacTool.freq_mhz p = some (100 / (2 * ((p : ℚ) + 1))) := by
  have ha : AdcTool.freq_divisor p = 2 * (p + 1) := by
    unfold AdcTool.freq_divisor u32_add
    omega
  have hd : DacTool.freq_divisor p = 2 * (p + 1) := by
    unfold DacTool.freq_divisor u32_add
    omega
  refine ⟨ha, by omega, hd, by omega, ?_, ?_⟩
  · unfold AdcTool.freq_mhz
    rw [if_neg (by omega), ha]
    push_cast
    rfl
  · unfold DacTool.freq_mhz
    rw [if_neg (by omega), hd]
    push_cast
    rfl

/-- The frequencies of the specification: prescaler 0 gives 50 MHz, prescaler 1
gives 25 MHz and prescaler 99 gives 1/2 MHz, in both consoles. -/
theorem freq_mhz_examples :
    AdcTool.freq_mhz 0 = some 50 ∧ AdcTool.freq_mhz 1 = some 25 ∧
    AdcTool.freq_mhz 99 = some (1 / 2) ∧
    DacTool.freq_mhz 0 = some 50 ∧ DacTool.freq_mhz 1 = some 25 ∧
    DacTool.freq_mhz 99 = some (1 / 2) := by
  refine ⟨?_, ?_, ?_, ?_, ?_, ?_⟩ <;>
    simp [AdcTool.freq_mhz, AdcTool.freq_divisor, DacTool.freq_mhz, DacTool.freq_divisor,
      u32_add] <;> norm_num

/-- C6: ADC sample decoding round-trips.  For every data word `r` the decoded
sample lies in [-32768, 32767]; the sample modulo `2 ^ 16` is `r & 0xFFFF`; the
overflow flag is bit 16 of `r`; and the sample depends on the low 16 bits of
`r` only, so that flipping bit 16 leaves it as it was. -/
theorem adc_sample_roundtrip (r : Nat) :
    (-32768 ≤ AdcTool.adc_val r ∧ AdcTool.adc_val r ≤ 32767) ∧
    AdcTool.adc_val r % 65536 = ((r &&& 0xFFFF : Nat) : Int) ∧
    AdcTool.adc_ovf r = (r.testBit 16).toNat ∧
    (∀ r1 : Nat, r1 &&& 0xFFFF = r &&& 0xFFFF → AdcTool.adc_val r1 = AdcTool.adc_val r) ∧
    AdcTool.adc_val (r ^^^ 0x10000) = AdcTool.adc_val r ∧
    AdcTool.adc_ovf (r ^^^ 0x10000) ≠ AdcTool.adc_ovf r := by
  have hv := adc_val_eq r
  refine ⟨?_, ?_, ?_, ?_, ?_, ?_⟩
  · rw [hv]
    split_ifs <;> omega
  · rw [hv, and_FFFF]
    split_ifs <;> omega
  · unfold AdcTool.adc_ovf
    rw [Nat.toNat_testBit, Nat.shiftRight_eq_div_pow, Nat.and_one_is_mod]
  · intro r1 h
    unfold AdcTool.adc_val
    rw [h]
  · rw [adc_val_eq, adc_val_eq, show (0x10000 : Nat) = 65536 from rfl, xor_bit16_mod]
  · unfold AdcTool.adc_ovf
    rw [Nat.shiftRight_eq_div_pow, Nat.and_one_is_mod, Nat.shiftRight_eq_div_pow,
      Nat.and_one_is_mod, ← Nat.toNat_testBit, ← Nat.toNat_testBit, Nat.testBit_xor,
      show (0x10000 : Nat) = 2 ^ 16 from rfl, Nat.testBit_two_pow]
    cases r.testBit 16 <;> simp


/-- Truncating division by 65535 is monotone. -/
theorem tdiv_65535_mono (a b : Int) (h : a ≤ b) : Int.tdiv a 65535 ≤ Int.tdiv b 65535 := by
  have neg : ∀ x : Int, x < 0 → Int.tdiv x 65535 = -((-x) / 65535) := by
    intro x hx
    have e := Int.neg_tdiv (-x) 65535
    rw [neg_neg] at e
    rw [e, Int.tdiv_eq_ediv (by omega) (by norm_num)]
  rcases le_or_lt 0 a with ha | ha
  · rw [Int.tdiv_eq_ediv ha (by norm_num), Int.tdiv_eq_ediv (by omega) (by norm_num)]
    omega
  · rcases le_or_lt 0 b with hb | hb
    · rw [neg a ha, Int.tdiv_eq_ediv hb (by norm_num)]
      omega
    · rw [neg a ha, neg b hb]
      omega

/-- The DAC bar length without the truncating division. -/
theorem dac_bars_eq (v : Nat) :
    DacTool.bars v = if (v : Int) * 60 / 4095 > 60 then 60 else (v : Int) * 60 / 4095 := by
  unfold DacTool.bars
  rw [Int.tdiv_eq_ediv (by omega) (by norm_num)]

/-- The ADC bar length of a decoded sample without the truncating division
and the clamps, which do not apply to it. -/
theorem adc_bars_eq (s : Int) (h1 : -32768 ≤ s) (h2 : s ≤ 32767) :
    AdcTool.bars s = (s + 32768) * 60 / 65535 := by
  unfold AdcTool.bars AdcTool.shifted_val
  rw [Int.tdiv_eq_ediv (by omega) (by norm_num)]
  simp only
  split_ifs <;> omega

/-- C7: bar length is bounded and monotone.  For every data word the ADC bar
length `(sample + 32768) * 60 / 65535` and the DAC bar length
`(DATA & 0x0FFF) * 60 / 4095` (integer divisions) lie in [0, 60]; the ADC bar
length is non-decreasing in the signed sample and the DAC bar length is
non-decreasing in the 12-bit value. -/
theorem bars_bounded_monotone :
    (∀ r : Nat, 0 ≤ AdcTool.bars (AdcTool.adc_val r) ∧ AdcTool.bars (AdcTool.adc_val r) ≤ 60 ∧
      AdcTool.bars (AdcTool.adc_val r) = (AdcTool.adc_val r + 32768) * 60 / 65535) ∧
    (∀ r : Nat, 0 ≤ DacTool.bars (DacTool.dac_val r) ∧ DacTool.bars (DacTool.dac_val r) ≤ 60 ∧
      DacTool.bars (DacTool.dac_val r) = ((r &&& 0x0FFF : Nat) : Int) * 60 / 4095) ∧
    (∀ s1 s2 : Int, s1 ≤ s2 → AdcTool.bars s1 ≤ AdcTool.bars s2) ∧
    (∀ v1 v2 : Nat, v1 ≤ v2 → DacTool.bars v1 ≤ DacTool.bars v2) := by
  refine ⟨?_, ?_, ?_, ?_⟩
  · intro r
    have hb : -32768 ≤ AdcTool.adc_val r ∧ AdcTool.adc_val r ≤ 32767 := by
      rw [adc_val_eq]
      split_ifs <;> omega
    rw [adc_bars_eq _ hb.1 hb.2]
    omega
  · intro r
    rw [dac_bars_eq, dac_val_eq, and_0FFF]
    split_ifs <;> omega
  · intro s1 s2 h
    have hm := tdiv_65535_mono (AdcTool.shifted_val s1 * 60) (AdcTool.shifted_val s2 * 60)
      (by unfold AdcTool.shifted_val; omega)
    unfold AdcTool.bars
    simp only
    split_ifs <;> omega
  · intro v1 v2 h
    rw [dac_bars_eq, dac_bars_eq]
    split_ifs <;> omega

/-- The bar lengths at the ends of the ranges: the raw ADC words 0x0000 and
0xFFFF (samples 0 and -1) give 30 and 29, the samples -32768 and 32767 give 0
and 60, and the DAC values 0 and 4095 give 0 and 60. -/
theorem bars_examples :
    AdcTool.bars (AdcTool.adc_val 0x0000) = 30 ∧ AdcTool.bars (AdcTool.adc_val 0xFFFF) = 29 ∧
    AdcTool.bars (AdcTool.adc_val 0x8000) = 0 ∧ AdcTool.bars (AdcTool.adc_val 0x7FFF) = 60 ∧
    DacTool.bars (DacTool.dac_val 0x0000) = 0 ∧ DacTool.bars (DacTool.dac_val 0xFFFF) = 60 := by
  decide

/-- The ADC voltage as a dyadic rational. -/
theorem voltage_eq (s : Int) : AdcTool.voltage s = ((10 * s : Int) : ℚ) * (2 : ℚ) ^ (-15 : Int) := by
  unfold AdcTool.voltage
  rw [zpow_neg]
  push_cast
  norm_num
  ring

/-- For a 16-bit sample every value of the voltage computation is held exactly
by a `double`: the sample, its quotient by 32768 and the product with 10. -/
theorem voltage_exact (s : Int) (h1 : -32768 ≤ s) (h2 : s ≤ 32767) :
    Binary64 (s : ℚ) ∧ Binary64 ((s : ℚ) / 32768) ∧ Binary64 (AdcTool.voltage s) := by
  refine ⟨⟨s, 0, ?_, by norm_num, by norm_num, by simp⟩,
    ⟨s, -15, ?_, by norm_num, by norm_num, ?_⟩,
    ⟨10 * s, -15, ?_, by norm_num, by norm_num, voltage_eq s⟩⟩
  · rw [abs_lt]; constructor <;> omega
  · rw [abs_lt]; constructor <;> omega
  · rw [zpow_neg]
    norm_num
    ring
  · rw [abs_lt]; constructor <;> omega

/-- C8: for every signed sample `s` in [-32768, 32767] the ADC voltage
`s / 32768 * 10` satisfies `-10 ≤ voltage ≤ 10`, and the voltage is monotone
in `s`. -/
theorem adc_voltage_bounded_monotone :
    (∀ s : Int, -32768 ≤ s → s ≤ 32767 →
      -10 ≤ AdcTool.voltage s ∧ AdcTool.voltage s ≤ 10) ∧
    (∀ r : Nat, -10 ≤ AdcTool.voltage (AdcTool.adc_val r) ∧
      AdcTool.voltage (AdcTool.adc_val r) ≤ 10) ∧
    (∀ s1 s2 : Int, s1 ≤ s2 → AdcTool.voltage s1 ≤ AdcTool.voltage s2) := by
  have bound : ∀ s : Int, -32768 ≤ s → s ≤ 32767 →
      -10 ≤ AdcTool.voltage s ∧ AdcTool.voltage s ≤ 10 := by
    intro s h1 h2
    have q1 : (-32768 : ℚ) ≤ s := by exact_mod_cast h1
    have q2 : (s : ℚ) ≤ 32767 := by exact_mod_cast h2
    unfold AdcTool.voltage
    constructor <;> linarith
  refine ⟨bound, ?_, ?_⟩
  · intro r
    have hb : -32768 ≤ AdcTool.adc_val r ∧ AdcTool.adc_val r ≤ 32767 := by
      rw [adc_val_eq]
      split_ifs <;> omega
    exact bound _ hb.1 hb.2
  · intro s1 s2 h
    have q : (s1 : ℚ) ≤ s2 := by exact_mod_cast h
    unfold AdcTool.voltage
    linarith

/-- The voltages at the ends of the range: -10 V at -32768, 0 V at 0, and
32767/32768 of 10 V at 32767. -/
theorem voltage_examples :
    AdcTool.voltage (-32768) = -10 ∧ AdcTool.voltage 0 = 0 ∧
    AdcTool.voltage 32767 = 163835 / 16384 := by
  unfold AdcTool.voltage
  norm_num


/-! ## GPIO tool -/

/-- The result of `atoi` is an `int`. -/
theorem atoi_range (nptr : String) :
    -2147483648 ≤ GpiodDacTest.atoi nptr ∧ GpiodDacTest.atoi nptr ≤ 2147483647 := by
  unfold GpiodDacTest.atoi GpiodDacTest.toInt32
  omega

/-- Values of `atoi`: digits are read up to the first other character, after
white space and a sign; no digits give 0; the result is cut to 32 bits. -/
theorem atoi_examples :
    GpiodDacTest.atoi "4095" = 4095 ∧ GpiodDacTest.atoi "-1" = -1 ∧
    GpiodDacTest.atoi "  +42x" = 42 ∧ GpiodDacTest.atoi "abc" = 0 ∧
    GpiodDacTest.atoi "4294967297" = 1 ∧ GpiodDacTest.atoi "2147483648" = -2147483648 := by
  decide

/-- C7 at two pairs of inputs: the samples -1 and 0 and the DAC values 4094 and
4095 are drawn in order. -/
theorem bars_bounded_monotone_witness :
    AdcTool.bars (-1) ≤ AdcTool.bars 0 ∧ DacTool.bars 4094 ≤ DacTool.bars 4095 :=
  ⟨bars_bounded_monotone.2.2.1 (-1) 0 (by decide),
   bars_bounded_monotone.2.2.2 4094 4095 (by decide)⟩

/-- C8 at the ends of the range: the voltages of the samples -32768 and 32767
lie in [-10, 10] and are in order. -/
theorem adc_voltage_bounded_monotone_witness :
    (-10 ≤ AdcTool.voltage (-32768) ∧ AdcTool.voltage (-32768) ≤ 10) ∧
    (-10 ≤ AdcTool.voltage 32767 ∧ AdcTool.voltage 32767 ≤ 10) ∧
    AdcTool.voltage (-32768) ≤ AdcTool.voltage 32767 :=
  ⟨adc_voltage_bounded_monotone.1 (-32768) (by decide) (by decide),
   adc_voltage_bounded_monotone.1 32767 (by decide) (by decide),
   adc_voltage_bounded_monotone.2.2 (-32768) 32767 (by decide)⟩

end VivadoIp
